import Mathlib

/-!
Verification of the hivemind multi-project dashboard server
(`MultiProjectDashboardServer` in the dashboard module).

The development shallowly embeds the active-session resolver
(`collectActiveSessions` / `findTaskById`), the periodic reconciliation
pass (`startPeriodicRescan`), and the teardown path (`stop`), together
with the tunnel stop operation, and proves the stated properties about
them.

JavaScript conventions used by the embedding:
* `Date` values are modelled as `Nat` (milliseconds since the epoch);
  `new Date(0)` is `0` and `new Date()` is an explicit `now` parameter.
* Optional fields are `Option`; the JS truthiness test on an optional
  string (`spec.tasks.inProgress`) is "present and non-empty".
* `Array.prototype.sort` is a stable sort by a consistent comparator;
  a stable sort's output is uniquely determined, so it is modelled by
  `List.insertionSort` (stable) with the comparator's "may precede"
  relation (`cmp a b ≤ 0`).
* A JS `Map` is an association list in insertion order with unique keys.
-/

namespace Hivemind

/-- A task in a spec's task tree (`Task` from the parser module): id,
description, completion flag and optional nested subtasks (a missing
`subtasks` array is `[]`). -/
inductive Task : Type where
  | mk : String → String → Bool → List Task → Task

def Task.id : Task → String
  | .mk i _ _ _ => i

def Task.description : Task → String
  | .mk _ d _ _ => d

def Task.completed : Task → Bool
  | .mk _ _ c _ => c

def Task.subtasks : Task → List Task
  | .mk _ _ _ s => s

/-- `spec.tasks`: the parsed tasks document, with the id of the task
flagged in-progress (if any) and the top-level task list. -/
structure TasksInfo where
  inProgress : Option String
  taskList : List Task

/-- A parsed spec record as consumed by `collectActiveSessions`
(`status` is a plain string in the source, compared against
"completed"). -/
structure SpecRec where
  name : String
  displayName : Option String
  status : String
  lastModified : Option Nat
  tasks : Option TasksInfo

/-- Bug status enum (`'reported' | 'analyzing' | 'fixing' | 'fixed' |
'verifying' | 'resolved'`). -/
inductive BugStatus : Type where
  | reported | analyzing | fixing | fixed | verifying | resolved
deriving DecidableEq

/-- Bug severity enum (`'critical' | 'high' | 'medium' | 'low'`). -/
inductive BugSeverity : Type where
  | critical | high | medium | low
deriving DecidableEq

/-- The optional bug report document; only its optional severity is
consulted by the resolver (`bug.report?.severity`). -/
structure BugReport where
  severity : Option BugSeverity
deriving DecidableEq

/-- A parsed bug record as consumed by `collectActiveSessions`. -/
structure BugRec where
  name : String
  displayName : Option String
  status : BugStatus
  lastModified : Option Nat
  report : Option BugReport
deriving DecidableEq

/-- A workspace as returned by project discovery (`DiscoveredProject`):
the fields `collectActiveSessions` and the rescan loop read. -/
structure DiscoveredProject where
  path : String
  name : String
  hasActiveSession : Bool
  gitBranch : Option String
  gitCommit : Option String
deriving DecidableEq

/-- Payload of the `spec` variant of `ActiveSession`
(`ActiveSpecSession`); the opaque `requirements`/`design` passthrough
fields are omitted (no property mentions them).  A missing `isAdHoc`
field in the source is the falsy `false`. -/
structure SpecSessionData where
  specName : String
  status : Option String
  tasks : Option TasksInfo
  task : Task
  isAdHoc : Bool

/-- Payload of the `bug` variant of `ActiveSession`
(`ActiveBugSession`). -/
structure BugSessionData where
  bugName : String
  bugStatus : BugStatus
  bugSeverity : Option BugSeverity
  nextCommand : String

/-- The discriminated union tag of `ActiveSession`. -/
inductive SessionVariant : Type where
  | spec (d : SpecSessionData)
  | bug (d : BugSessionData)

/-- A rendered active session (`ActiveSession` =
`ActiveSpecSession | ActiveBugSession`); the `BaseActiveSession` fields
plus the variant payload. -/
structure ActiveSession where
  projectPath : String
  projectName : String
  displayName : String
  lastModified : Nat
  isCurrentlyActive : Bool
  hasActiveSession : Bool
  gitBranch : Option String
  gitCommit : Option String
  variant : SessionVariant

mutual
/-- The body of the `findTaskById` loop for one task: check the task's
own id, then search its `subtasks` (split out of the loop so the
recursion is structural). -/
def findInTask : Task → String → Option Task
  | Task.mk i d c subs, taskId =>
    if i = taskId then some (Task.mk i d c subs)
    else findTaskById subs taskId

/-- `findTaskById(tasks, taskId)`: depth-first search of a task list,
descending into `subtasks`, for the task with the given id. -/
def findTaskById : List Task → String → Option Task
  | [], _ => none
  | t :: ts, taskId =>
    match findInTask t taskId with
    | some found => some found
    | none => findTaskById ts taskId
end

/-- JS truthiness of an optional string field: present and non-empty. -/
def strTruthy : Option String → Bool
  | none => false
  | some s => s ≠ ""

/-- The `spec.tasks && spec.tasks.inProgress` guard used both for the
priority-100 candidate test and for the task search. -/
def specHasInProgress (s : SpecRec) : Bool :=
  match s.tasks with
  | none => false
  | some t => strTruthy t.inProgress

/-- The `['analyzing', 'fixing', 'verifying'].includes(bug.status)`
test for an active bug. -/
def bugIsActive (b : BugRec) : Bool :=
  decide (b.status = BugStatus.analyzing) || decide (b.status = BugStatus.fixing)
    || decide (b.status = BugStatus.verifying)

/-- The untagged `item` stored in an `activeWorkItems` entry. -/
inductive WorkRef : Type where
  | spec (s : SpecRec)
  | bug (b : BugRec)

/-- One entry of the resolver's `activeWorkItems` array:
`{type, item, lastModified, priority}` (the `type` tag is carried by
`WorkRef`).  `lastModified` is `item.lastModified || new Date(0)`. -/
structure WorkItem where
  ref : WorkRef
  lastModified : Nat
  priority : Nat

/-- The priority-100 and priority-90 candidate collection loops (specs
with an in-progress task, then bugs with an active status). -/
def primaryWorkItems (specs : List SpecRec) (bugs : List BugRec) : List WorkItem :=
  specs.filterMap (fun s =>
    if specHasInProgress s then some ⟨WorkRef.spec s, s.lastModified.getD 0, 100⟩ else none)
  ++ bugs.filterMap (fun b =>
    if bugIsActive b then some ⟨WorkRef.bug b, b.lastModified.getD 0, 90⟩ else none)

/-- The priority-10 fallback loops (non-completed specs, then
non-resolved bugs), run only when the primary list is empty. -/
def fallbackWorkItems (specs : List SpecRec) (bugs : List BugRec) : List WorkItem :=
  specs.filterMap (fun s =>
    if s.status ≠ "completed" then some ⟨WorkRef.spec s, s.lastModified.getD 0, 10⟩ else none)
  ++ bugs.filterMap (fun b =>
    if b.status ≠ BugStatus.resolved then some ⟨WorkRef.bug b, b.lastModified.getD 0, 10⟩ else none)

/-- The full `activeWorkItems` list: primary candidates, or the
fallback candidates when there are none. -/
def buildWorkItems (specs : List SpecRec) (bugs : List BugRec) : List WorkItem :=
  if (primaryWorkItems specs bugs).isEmpty then fallbackWorkItems specs bugs
  else primaryWorkItems specs bugs

/-- "May precede" relation of the `activeWorkItems.sort` comparator
(higher priority first, ties by most recent `lastModified` first):
`itemBefore a b` iff the comparator value of `(a, b)` is `≤ 0`. -/
@[reducible] def itemBefore (a b : WorkItem) : Prop :=
  if a.priority = b.priority then b.lastModified ≤ a.lastModified
  else b.priority < a.priority

instance : IsTotal WorkItem itemBefore where
  total a b := by
    unfold itemBefore
    rcases eq_or_ne a.priority b.priority with h | h
    · simp [h, Nat.le_total]
    · rcases Nat.lt_or_ge a.priority b.priority with h2 | h2
      · simp [h, h.symm, h2, Nat.not_lt_of_lt h2]
      · simp [h, h.symm, Nat.lt_of_le_of_ne h2 (Ne.symm h)]

instance : IsTrans WorkItem itemBefore where
  trans a b c hab hbc := by
    unfold itemBefore at *
    split_ifs at * <;> omega

/-- The placeholder task synthesized when no in-progress task is found
for the selected spec. -/
def placeholderTask (s : SpecRec) : Task :=
  Task.mk "session" (s.displayName.getD s.name) false []

/-- The `activeTask` computation for a selected spec: search the task
tree for the in-progress id when the guard holds, otherwise `none`. -/
def specActiveTask (s : SpecRec) : Option Task :=
  match s.tasks with
  | none => none
  | some t =>
    match t.inProgress with
    | none => none
    | some id => if id = "" then none else findTaskById t.taskList id

/-- Rendering of the `spec` variant `ActiveSpecSession` for a selected
spec work item. -/
def renderSpecSession (path : String) (proj : DiscoveredProject) (s : SpecRec)
    (lm : Nat) : ActiveSession where
  projectPath := path
  projectName := proj.name
  displayName := s.displayName.getD s.name
  lastModified := lm
  isCurrentlyActive := true
  hasActiveSession := true
  gitBranch := proj.gitBranch
  gitCommit := proj.gitCommit
  variant := SessionVariant.spec
    { specName := s.name
      status := some s.status
      tasks := s.tasks
      task := (specActiveTask s).getD (placeholderTask s)
      isAdHoc := false }

/-- The `switch (bug.status)` lookup of the next command for a selected
bug (the `default` arm of the source switch is unreachable for the
typed status enum). -/
def bugNextCommand (b : BugRec) : String :=
  match b.status with
  | BugStatus.reported => "/bug-analyze " ++ b.name
  | BugStatus.analyzing => "/bug-analyze " ++ b.name
  | BugStatus.fixing => "/bug-fix " ++ b.name
  | BugStatus.verifying => "/bug-verify " ++ b.name
  | BugStatus.fixed => "/bug-verify " ++ b.name
  | BugStatus.resolved => ""

/-- Rendering of the `bug` variant `ActiveBugSession` for a selected
bug work item (`bugSeverity` is `bug.report?.severity`). -/
def renderBugSession (path : String) (proj : DiscoveredProject) (b : BugRec)
    (lm : Nat) : ActiveSession where
  projectPath := path
  projectName := proj.name
  displayName := b.displayName.getD b.name
  lastModified := lm
  isCurrentlyActive := true
  hasActiveSession := true
  gitBranch := proj.gitBranch
  gitCommit := proj.gitCommit
  variant := SessionVariant.bug
    { bugName := b.name
      bugStatus := b.status
      bugSeverity := b.report.bind BugReport.severity
      nextCommand := bugNextCommand b }

/-- Rendering of the head work item (`mostRecent`) by its tag. -/
def renderWorkItem (path : String) (proj : DiscoveredProject) (w : WorkItem) : ActiveSession :=
  match w.ref with
  | WorkRef.spec s => renderSpecSession path proj s w.lastModified
  | WorkRef.bug b => renderBugSession path proj b w.lastModified

/-- The synthetic ad-hoc session emitted when no work item exists for a
workspace with an attached process (`new Date()` is the `now`
parameter). -/
def adHocSession (now : Nat) (path : String) (proj : DiscoveredProject) : ActiveSession where
  projectPath := path
  projectName := proj.name
  displayName := "Ad-hoc Session"
  lastModified := now
  isCurrentlyActive := true
  hasActiveSession := true
  gitBranch := proj.gitBranch
  gitCommit := proj.gitCommit
  variant := SessionVariant.spec
    { specName := "ad-hoc-session"
      status := none
      tasks := none
      task := Task.mk "session" "Active Claude session" false []
      isAdHoc := true }

/-- The external collaborators of the server, as functions: the
document parser of each workspace (`parser.getAllSpecs()` /
`parser.getAllBugs()`) and path canonicalization
(`normalize(resolve(path))`). -/
structure Env where
  specsOf : String → List SpecRec
  bugsOf : String → List BugRec
  norm : String → String

/-- The per-workspace body of `collectActiveSessions`: sort the work
items (stably, priority then recency) and render the head, or the
ad-hoc session when there are none. -/
def resolveSession (env : Env) (now : Nat) (path : String)
    (proj : DiscoveredProject) : ActiveSession :=
  match (List.insertionSort itemBefore
      (buildWorkItems (env.specsOf path) (env.bugsOf path))).head? with
  | some w => renderWorkItem path proj w
  | none => adHocSession now path proj

/-- "May precede" relation of the final `allActiveSessions.sort`
comparator: `isCurrentlyActive` first (rank 0) before inactive
(rank 1), ties by project name (`localeCompare ≤ 0` modelled as
lexicographic `≤`). -/
def sessionRank (s : ActiveSession) : Nat :=
  if s.isCurrentlyActive then 0 else 1

@[reducible] def sessionBefore (a b : ActiveSession) : Prop :=
  sessionRank a < sessionRank b ∨ (sessionRank a = sessionRank b ∧ a.projectName ≤ b.projectName)

instance : IsTotal ActiveSession sessionBefore where
  total a b := by
    unfold sessionBefore
    rcases Nat.lt_trichotomy (sessionRank a) (sessionRank b) with h | h | h
    · exact Or.inl (Or.inl h)
    · rcases le_total a.projectName b.projectName with h2 | h2
      · exact Or.inl (Or.inr ⟨h, h2⟩)
      · exact Or.inr (Or.inr ⟨h.symm, h2⟩)
    · exact Or.inr (Or.inl h)

instance : IsTrans ActiveSession sessionBefore where
  trans a b c hab hbc := by
    unfold sessionBefore at *
    rcases hab with h1 | ⟨h1, h1n⟩ <;> rcases hbc with h2 | ⟨h2, h2n⟩
    · exact Or.inl (Nat.lt_trans h1 h2)
    · exact Or.inl (h2 ▸ h1)
    · exact Or.inl (h1 ▸ h2)
    · exact Or.inr ⟨h1.trans h2, h1n.trans h2n⟩

/-- `collectActiveSessions`: keep only the workspaces whose
`hasActiveSession` flag is set, resolve one session for each, and sort
by the final comparator. -/
def collectActiveSessions (env : Env) (now : Nat)
    (registry : List (String × DiscoveredProject)) : List ActiveSession :=
  List.insertionSort sessionBefore
    (registry.filterMap (fun e =>
      if e.2.hasActiveSession then some (resolveSession env now e.1 e.2) else none))

/-- `this.projects.has(path)` on the registry association list. -/
def hasKey (reg : List (String × DiscoveredProject)) (p : String) : Bool :=
  reg.any (fun e => e.1 = p)

/-- Accumulator of the new-project loop of the periodic rescan:
the registry map, the paths announced in `new-project` messages, and
the discovery array as mutated in place by `initializeProject`
(which overwrites `project.path` with its canonicalized form). -/
structure AddResult where
  registry : List (String × DiscoveredProject)
  added : List String
  discovered : List DiscoveredProject

/-- One iteration of the new-project loop: a project whose (raw) path
is not yet registered is initialized — its path canonicalized in place
— and registered under the canonical path, and a `new-project` message
is emitted. -/
def addStep (env : Env) (acc : AddResult) (p : DiscoveredProject) : AddResult :=
  if hasKey acc.registry p.path then
    { acc with discovered := acc.discovered ++ [p] }
  else
    let key := env.norm p.path
    let p2 := { p with path := key }
    { registry := acc.registry ++ [(key, p2)]
      added := acc.added ++ [key]
      discovered := acc.discovered ++ [p2] }

def rescanAdditionsAux (env : Env) : List DiscoveredProject → AddResult → AddResult
  | [], acc => acc
  | p :: rest, acc => rescanAdditionsAux env rest (addStep env acc p)

/-- The whole new-project loop over the fresh discovery result. -/
def rescanAdditions (env : Env) (discovered : List DiscoveredProject)
    (reg : List (String × DiscoveredProject)) : AddResult :=
  rescanAdditionsAux env discovered { registry := reg, added := [], discovered := [] }

/-- Outcome of one body of the `startPeriodicRescan` interval callback:
the registry after the diff, the `new-project` and `remove-project`
messages, and the `active-sessions-update` snapshot broadcast at the
end. -/
structure RescanResult where
  registry : List (String × DiscoveredProject)
  added : List String
  removed : List String
  snapshot : List ActiveSession

/-- One reconciliation pass: add newly discovered projects, remove
registered projects that discovery (as mutated in place by
initialization) no longer reports (the `stillExists` check), then
recompute the active-session snapshot. -/
def rescanPass (env : Env) (now : Nat) (discovered : List DiscoveredProject)
    (reg : List (String × DiscoveredProject)) : RescanResult :=
  { registry := (rescanAdditions env discovered reg).registry.filter
      (fun e => (rescanAdditions env discovered reg).discovered.any (fun p => p.path = e.1))
    added := (rescanAdditions env discovered reg).added
    removed := ((rescanAdditions env discovered reg).registry.filter
      (fun e => ! (rescanAdditions env discovered reg).discovered.any
        (fun p => p.path = e.1))).map Prod.fst
    snapshot := collectActiveSessions env now
      ((rescanAdditions env discovered reg).registry.filter
        (fun e => (rescanAdditions env discovered reg).discovered.any
          (fun p => p.path = e.1))) }

/-- Erase the timestamp fields of a snapshot (the only fields that may
legitimately differ between two reconciliation passes over unchanged
data). -/
def eraseTimestamps (l : List ActiveSession) : List ActiveSession :=
  l.map (fun s => { s with lastModified := 0 })

/-- Modelled from the spec: the state of the pluggable secure-tunnel
collaborator (`TunnelManager`, whose implementation is not under the
sources provided): provider name, public URL, active flag. -/
structure TunnelInfo where
  provider : String
  url : String
deriving DecidableEq

structure TunnelState where
  active : Bool
  info : Option TunnelInfo
deriving DecidableEq

/-- Modelled from the spec: `TunnelManager.stopTunnel` (the tunnel
collaborator's `stop` capability, implemented outside the provided
sources): "stop is a safe no-op if no tunnel is active"; when a tunnel
is active it is torn down. -/
def stopTunnel (t : TunnelState) : Except String TunnelState :=
  if t.active then Except.ok { active := false, info := none } else Except.ok t

/-- The `if (this.tunnelManager) await this.tunnelManager.stopTunnel()`
guard used by the server: an absent tunnel manager is skipped. -/
def stopTunnelIfPresent : Option TunnelState → Except String (Option TunnelState)
  | none => Except.ok none
  | some t => (stopTunnel t).map some

/-- A connected WebSocket client as the teardown path sees it
(`readyState === 1` is OPEN). -/
structure Client where
  id : Nat
  readyState : Nat
deriving DecidableEq

/-- The server state consulted by `stop()`. -/
structure ServerState where
  rescanInterval : Bool
  projects : List (String × DiscoveredProject)
  tunnelManager : Option TunnelState
  clients : List Client

/-- The individual teardown actions `stop()` performs. -/
inductive StopStep : Type where
  | cancelTimer
  | stopWatcher (path : String)
  | stopTunnelStep
  | closeChannel (id : Nat)
  | clearClients
  | closeServer
deriving DecidableEq

/-- The teardown actions in source order: `clearInterval` on the rescan
timer, `watcher.stop()` per registered project, `stopTunnel` if a
tunnel manager exists, `close()` per open client, `clients.clear()`,
`app.close()`. -/
def stopSequence (s : ServerState) : List StopStep :=
  (if s.rescanInterval then [StopStep.cancelTimer] else [])
  ++ s.projects.map (fun e => StopStep.stopWatcher e.1)
  ++ (match s.tunnelManager with
      | some _ => [StopStep.stopTunnelStep]
      | none => [])
  ++ (s.clients.filter (fun c => c.readyState = 1)).map (fun c => StopStep.closeChannel c.id)
  ++ [StopStep.clearClients, StopStep.closeServer]

/-- Which teardown actions can throw / reject (`clearInterval` and
`Set.clear` cannot; the awaited collaborator calls and `close()`
can). -/
def stepCanThrow : StopStep → Bool
  | StopStep.cancelTimer => false
  | StopStep.clearClients => false
  | _ => true

/-- Run a sequence of teardown steps under a failure oracle.  `stop()`
wraps none of its steps in try/catch, so a step that throws rejects the
whole call and no later step runs.  Returns the steps that started and
whether the call completed. -/
def runSteps (fails : StopStep → Bool) : List StopStep → List StopStep × Bool
  | [] => ([], true)
  | st :: rest =>
    if stepCanThrow st && fails st then ([st], false)
    else
      let r := runSteps fails rest
      (st :: r.1, r.2)

/-- The server's `stop()` method. -/
def runStop (fails : StopStep → Bool) (s : ServerState) : List StopStep × Bool :=
  runSteps fails (stopSequence s)

/-! ### Helper lemmas about the resolver -/

theorem renderWorkItem_projectPath (path : String) (proj : DiscoveredProject) (w : WorkItem) :
    (renderWorkItem path proj w).projectPath = path := by
  rcases hw : w.ref with s | b <;> simp [renderWorkItem, hw, renderSpecSession, renderBugSession]

theorem renderWorkItem_isCurrentlyActive (path : String) (proj : DiscoveredProject)
    (w : WorkItem) : (renderWorkItem path proj w).isCurrentlyActive = true := by
  rcases hw : w.ref with s | b <;> simp [renderWorkItem, hw, renderSpecSession, renderBugSession]

theorem renderWorkItem_hasActiveSession (path : String) (proj : DiscoveredProject)
    (w : WorkItem) : (renderWorkItem path proj w).hasActiveSession = true := by
  rcases hw : w.ref with s | b <;> simp [renderWorkItem, hw, renderSpecSession, renderBugSession]

theorem resolveSession_projectPath (env : Env) (now : Nat) (path : String)
    (proj : DiscoveredProject) : (resolveSession env now path proj).projectPath = path := by
  unfold resolveSession
  cases (List.insertionSort itemBefore
      (buildWorkItems (env.specsOf path) (env.bugsOf path))).head? with
  | none => rfl
  | some w => exact renderWorkItem_projectPath path proj w

theorem resolveSession_isCurrentlyActive (env : Env) (now : Nat) (path : String)
    (proj : DiscoveredProject) : (resolveSession env now path proj).isCurrentlyActive = true := by
  unfold resolveSession
  cases (List.insertionSort itemBefore
      (buildWorkItems (env.specsOf path) (env.bugsOf path))).head? with
  | none => rfl
  | some w => exact renderWorkItem_isCurrentlyActive path proj w

theorem resolveSession_hasActiveSession (env : Env) (now : Nat) (path : String)
    (proj : DiscoveredProject) : (resolveSession env now path proj).hasActiveSession = true := by
  unfold resolveSession
  cases (List.insertionSort itemBefore
      (buildWorkItems (env.specsOf path) (env.bugsOf path))).head? with
  | none => rfl
  | some w => exact renderWorkItem_hasActiveSession path proj w

/-- Membership in the broadcast snapshot, unfolded to the registry
entry it came from. -/
theorem mem_collectActiveSessions {env : Env} {now : Nat}
    {reg : List (String × DiscoveredProject)} {s : ActiveSession} :
    s ∈ collectActiveSessions env now reg ↔
      ∃ e ∈ reg, e.2.hasActiveSession = true ∧ s = resolveSession env now e.1 e.2 := by
  unfold collectActiveSessions
  rw [(List.perm_insertionSort sessionBefore _).mem_iff, List.mem_filterMap]
  constructor
  · rintro ⟨e, he, hs⟩
    by_cases h : e.2.hasActiveSession = true
    · refine ⟨e, he, h, ?_⟩
      rw [if_pos h] at hs
      exact (Option.some_inj.mp hs).symm
    · rw [if_neg h] at hs
      exact absurd hs (Option.noConfusion)
  · rintro ⟨e, he, h, hs⟩
    exact ⟨e, he, by rw [if_pos h, hs]⟩

theorem collect_sorted (env : Env) (now : Nat) (reg : List (String × DiscoveredProject)) :
    List.Sorted sessionBefore (collectActiveSessions env now reg) :=
  List.sorted_insertionSort sessionBefore _

/-! ### Claim theorems: ordering (C3) and flag invariants (C10) -/

/-- C3. For every registry state, the rendered active-session list
returned by `collectActiveSessions` is ordered with all entries having
`isCurrentlyActive = true` before any entry with it `false`, and within
each group ascending by workspace display name. -/
theorem collect_ordering (env : Env) (now : Nat)
    (reg : List (String × DiscoveredProject)) :
    (collectActiveSessions env now reg).Pairwise (fun a b =>
      (b.isCurrentlyActive = true → a.isCurrentlyActive = true) ∧
      (a.isCurrentlyActive = b.isCurrentlyActive → a.projectName ≤ b.projectName)) := by
  refine (collect_sorted env now reg).imp ?_
  intro a b hab
  rcases hab with h | ⟨h, hn⟩
  · unfold sessionRank at h
    constructor
    · intro hb
      rw [hb] at h
      by_contra ha
      simp only [Bool.not_eq_true] at ha
      simp [ha] at h
    · intro hab2
      rw [hab2] at h
      simp at h
  · constructor
    · intro hb
      unfold sessionRank at h
      rw [hb] at h
      by_contra ha
      simp only [Bool.not_eq_true] at ha
      simp [ha] at h
    · intro _
      exact hn

/-- C10. Every session the collector emits has `isCurrentlyActive =
true` and `hasActiveSession = true`, so the primary sort key never
discriminates and the emitted list is ordered solely by workspace
(project) name. -/
theorem collect_flags_and_name_order (env : Env) (now : Nat)
    (reg : List (String × DiscoveredProject)) :
    (∀ s ∈ collectActiveSessions env now reg,
        s.isCurrentlyActive = true ∧ s.hasActiveSession = true) ∧
    (collectActiveSessions env now reg).Pairwise (fun a b =>
        a.projectName ≤ b.projectName) := by
  have hmem : ∀ s ∈ collectActiveSessions env now reg,
      s.isCurrentlyActive = true ∧ s.hasActiveSession = true := by
    intro s hs
    obtain ⟨e, _, _, rfl⟩ := mem_collectActiveSessions.mp hs
    exact ⟨resolveSession_isCurrentlyActive env now e.1 e.2,
      resolveSession_hasActiveSession env now e.1 e.2⟩
  refine ⟨hmem, (collect_sorted env now reg).imp_of_mem ?_⟩
  intro a b ha hb hab
  rcases hab with h | ⟨_, hn⟩
  · unfold sessionRank at h
    rw [(hmem a ha).1, (hmem b hb).1] at h
    simp at h
  · exact hn

/-! ### Claim theorem: snapshot cardinality invariant (C1) -/

theorem countP_path_eq_zero (env : Env) (now : Nat) (p : String)
    (reg : List (String × DiscoveredProject)) (hp : p ∉ reg.map Prod.fst) :
    List.countP (fun s => decide (s.projectPath = p))
      (reg.filterMap (fun e =>
        if e.2.hasActiveSession then some (resolveSession env now e.1 e.2) else none)) = 0 := by
  rw [List.countP_eq_zero]
  intro s hs
  obtain ⟨e, he, hsome⟩ := List.mem_filterMap.mp hs
  by_cases h : e.2.hasActiveSession = true
  · rw [if_pos h] at hsome
    obtain rfl := Option.some_inj.mp hsome
    rw [resolveSession_projectPath]
    simp only [decide_eq_true_eq]
    intro hpe
    exact hp (hpe ▸ List.mem_map_of_mem Prod.fst he)
  · rw [if_neg h] at hsome
    exact absurd hsome Option.noConfusion

theorem countP_path_le_one (env : Env) (now : Nat) (p : String) :
    ∀ (reg : List (String × DiscoveredProject)), (reg.map Prod.fst).Nodup →
      List.countP (fun s => decide (s.projectPath = p))
        (reg.filterMap (fun e =>
          if e.2.hasActiveSession then some (resolveSession env now e.1 e.2) else none)) ≤ 1
  | [], _ => by simp
  | e :: rest, h => by
    rw [List.map_cons, List.nodup_cons] at h
    rw [List.filterMap_cons]
    by_cases ha : e.2.hasActiveSession = true
    · rw [if_pos ha, List.countP_cons]
      by_cases hpe : e.1 = p
      · have hzero := countP_path_eq_zero env now p rest (hpe ▸ h.1)
        rw [hzero]
        split <;> omega
      · have hle := countP_path_le_one env now p rest h.2
        rw [resolveSession_projectPath]
        simp only [decide_eq_true_eq, if_neg hpe]
        omega
    · rw [if_neg ha]
      exact countP_path_le_one env now p rest h.2

/-- Two entries of a registry with duplicate-free keys that share a key
are the same entry. -/
theorem eq_of_keys_nodup {reg : List (String × DiscoveredProject)}
    (h : (reg.map Prod.fst).Nodup) {e f : String × DiscoveredProject}
    (he : e ∈ reg) (hf : f ∈ reg) (hkey : e.1 = f.1) : e = f := by
  induction reg with
  | nil => exact absurd he (List.not_mem_nil e)
  | cons x rest ih =>
    rw [List.map_cons, List.nodup_cons] at h
    rcases List.mem_cons.mp he with rfl | he2 <;> rcases List.mem_cons.mp hf with rfl | hf2
    · rfl
    · exact absurd (hkey ▸ List.mem_map_of_mem Prod.fst hf2) h.1
    · exact absurd (hkey ▸ List.mem_map_of_mem Prod.fst he2) h.1
    · exact ih h.2 he2 hf2

/-- C1. In any broadcast snapshot there is at most one session per
workspace, no session for a workspace whose attached-process flag is
false, and the snapshot is never longer than the registry. -/
theorem collect_cardinality (env : Env) (now : Nat)
    (reg : List (String × DiscoveredProject)) (h : (reg.map Prod.fst).Nodup) :
    (collectActiveSessions env now reg).length ≤ reg.length ∧
    (∀ p : String,
      ((collectActiveSessions env now reg).filter
        (fun s => decide (s.projectPath = p))).length ≤ 1) ∧
    (∀ s ∈ collectActiveSessions env now reg, ∀ e ∈ reg,
      s.projectPath = e.1 → e.2.hasActiveSession = true) := by
  refine ⟨?_, ?_, ?_⟩
  · unfold collectActiveSessions
    rw [(List.perm_insertionSort sessionBefore _).length_eq]
    exact List.length_filterMap_le _ reg
  · intro p
    rw [← List.countP_eq_length_filter]
    unfold collectActiveSessions
    rw [(List.perm_insertionSort sessionBefore _).countP_eq]
    exact countP_path_le_one env now p reg h
  · intro s hs e he hpath
    obtain ⟨f, hf, hfa, rfl⟩ := mem_collectActiveSessions.mp hs
    rw [resolveSession_projectPath] at hpath
    obtain rfl := eq_of_keys_nodup h hf he hpath
    exact hfa

/-- C1 witness: the theorem applied to a concrete two-workspace
registry, one workspace with and one without an attached process. -/
theorem collect_cardinality_witness :
    (([("/a", DiscoveredProject.mk "/a" "A" true none none),
       ("/b", DiscoveredProject.mk "/b" "B" false none none)].map Prod.fst).Nodup) ∧
    ((collectActiveSessions (Env.mk (fun _ => []) (fun _ => []) id) 0
        [("/a", DiscoveredProject.mk "/a" "A" true none none),
         ("/b", DiscoveredProject.mk "/b" "B" false none none)]).length ≤ 2 ∧
      (∀ p : String,
        ((collectActiveSessions (Env.mk (fun _ => []) (fun _ => []) id) 0
          [("/a", DiscoveredProject.mk "/a" "A" true none none),
           ("/b", DiscoveredProject.mk "/b" "B" false none none)]).filter
            (fun s => decide (s.projectPath = p))).length ≤ 1) ∧
      (∀ s ∈ collectActiveSessions (Env.mk (fun _ => []) (fun _ => []) id) 0
          [("/a", DiscoveredProject.mk "/a" "A" true none none),
           ("/b", DiscoveredProject.mk "/b" "B" false none none)], ∀ e ∈
          [("/a", DiscoveredProject.mk "/a" "A" true none none),
           ("/b", DiscoveredProject.mk "/b" "B" false none none)],
        s.projectPath = e.1 → e.2.hasActiveSession = true)) :=
  ⟨by decide,
    collect_cardinality (Env.mk (fun _ => []) (fun _ => []) id) 0
      [("/a", DiscoveredProject.mk "/a" "A" true none none),
       ("/b", DiscoveredProject.mk "/b" "B" false none none)] (by decide)⟩

/-! ### Helper lemmas about the candidate list -/

/-- Case analysis of a primary candidate. -/
theorem primaryWorkItems_mem_cases {specs : List SpecRec} {bugs : List BugRec} {x : WorkItem}
    (hx : x ∈ primaryWorkItems specs bugs) :
    (∃ s ∈ specs, specHasInProgress s = true ∧
        x = ⟨WorkRef.spec s, s.lastModified.getD 0, 100⟩) ∨
    (∃ b ∈ bugs, bugIsActive b = true ∧
        x = ⟨WorkRef.bug b, b.lastModified.getD 0, 90⟩) := by
  unfold primaryWorkItems at hx
  rcases List.mem_append.mp hx with hx | hx
  · left
    obtain ⟨s, hs, hsome⟩ := List.mem_filterMap.mp hx
    by_cases h : specHasInProgress s = true
    · rw [if_pos h] at hsome
      exact ⟨s, hs, h, (Option.some_inj.mp hsome).symm⟩
    · rw [if_neg h] at hsome
      exact absurd hsome Option.noConfusion
  · right
    obtain ⟨b, hb, hsome⟩ := List.mem_filterMap.mp hx
    by_cases h : bugIsActive b = true
    · rw [if_pos h] at hsome
      exact ⟨b, hb, h, (Option.some_inj.mp hsome).symm⟩
    · rw [if_neg h] at hsome
      exact absurd hsome Option.noConfusion

/-- Case analysis of a fallback candidate. -/
theorem fallbackWorkItems_mem_cases {specs : List SpecRec} {bugs : List BugRec} {x : WorkItem}
    (hx : x ∈ fallbackWorkItems specs bugs) :
    (∃ s ∈ specs, x = ⟨WorkRef.spec s, s.lastModified.getD 0, 10⟩) ∨
    (∃ b ∈ bugs, x = ⟨WorkRef.bug b, b.lastModified.getD 0, 10⟩) := by
  unfold fallbackWorkItems at hx
  rcases List.mem_append.mp hx with hx | hx
  · left
    obtain ⟨s, hs, hsome⟩ := List.mem_filterMap.mp hx
    refine ⟨s, hs, ?_⟩
    by_cases h : s.status ≠ "completed"
    · rw [if_pos h] at hsome
      exact (Option.some_inj.mp hsome).symm
    · rw [if_neg h] at hsome
      exact absurd hsome Option.noConfusion
  · right
    obtain ⟨b, hb, hsome⟩ := List.mem_filterMap.mp hx
    refine ⟨b, hb, ?_⟩
    by_cases h : b.status ≠ BugStatus.resolved
    · rw [if_pos h] at hsome
      exact (Option.some_inj.mp hsome).symm
    · rw [if_neg h] at hsome
      exact absurd hsome Option.noConfusion

/-- A candidate tagged as a spec always wraps a spec from the parsed
record set, and one tagged as a bug a parsed bug. -/
theorem buildWorkItems_mem_ref {specs : List SpecRec} {bugs : List BugRec} {x : WorkItem}
    (hx : x ∈ buildWorkItems specs bugs) :
    (∀ s, x.ref = WorkRef.spec s → s ∈ specs) ∧
    (∀ b, x.ref = WorkRef.bug b → b ∈ bugs) := by
  unfold buildWorkItems at hx
  have hcases :
      (∃ s ∈ specs, ∃ lm pr, x = ⟨WorkRef.spec s, lm, pr⟩) ∨
      (∃ b ∈ bugs, ∃ lm pr, x = ⟨WorkRef.bug b, lm, pr⟩) := by
    split at hx
    · rcases fallbackWorkItems_mem_cases hx with ⟨s, hs, rfl⟩ | ⟨b, hb, rfl⟩
      · exact Or.inl ⟨s, hs, s.lastModified.getD 0, 10, rfl⟩
      · exact Or.inr ⟨b, hb, b.lastModified.getD 0, 10, rfl⟩
    · rcases primaryWorkItems_mem_cases hx with ⟨s, hs, _, rfl⟩ | ⟨b, hb, _, rfl⟩
      · exact Or.inl ⟨s, hs, s.lastModified.getD 0, 100, rfl⟩
      · exact Or.inr ⟨b, hb, b.lastModified.getD 0, 90, rfl⟩
  rcases hcases with ⟨s, hs, lm, pr, rfl⟩ | ⟨b, hb, lm, pr, rfl⟩
  · refine ⟨fun s2 hs2 => ?_, fun b2 hb2 => ?_⟩
    · cases hs2; exact hs
    · cases hb2
  · refine ⟨fun s2 hs2 => ?_, fun b2 hb2 => ?_⟩
    · cases hs2
    · cases hb2; exact hb

/-- `itemBefore` ranks by priority first. -/
theorem itemBefore_priority_le {a b : WorkItem} (h : itemBefore a b) :
    b.priority ≤ a.priority := by
  unfold itemBefore at h
  split at h <;> omega

/-! ### Claim theorem: spec-over-bug priority law (C2) -/

/-- C2. A workspace offering both a spec with an in-progress task and
an active bug always resolves to the spec variant (rendered from some
in-progress spec). -/
theorem resolver_prefers_spec (env : Env) (now : Nat) (path : String)
    (proj : DiscoveredProject)
    (h1 : ∃ s ∈ env.specsOf path, specHasInProgress s = true)
    (_h2 : ∃ b ∈ env.bugsOf path, bugIsActive b = true) :
    ∃ d, (resolveSession env now path proj).variant = SessionVariant.spec d ∧
      d.isAdHoc = false ∧
      ∃ s ∈ env.specsOf path, specHasInProgress s = true ∧ d.specName = s.name := by
  obtain ⟨s, hs, hsp⟩ := h1
  have hitem : (⟨WorkRef.spec s, s.lastModified.getD 0, 100⟩ : WorkItem)
      ∈ primaryWorkItems (env.specsOf path) (env.bugsOf path) := by
    unfold primaryWorkItems
    exact List.mem_append_left _
      (List.mem_filterMap.mpr ⟨s, hs, by rw [if_pos hsp]⟩)
  have hbuild : buildWorkItems (env.specsOf path) (env.bugsOf path)
      = primaryWorkItems (env.specsOf path) (env.bugsOf path) := by
    unfold buildWorkItems
    rw [if_neg]
    simp only [List.isEmpty_iff]
    exact List.ne_nil_of_mem hitem
  have hperm := List.perm_insertionSort itemBefore
    (buildWorkItems (env.specsOf path) (env.bugsOf path))
  have hmem_sorted : (⟨WorkRef.spec s, s.lastModified.getD 0, 100⟩ : WorkItem)
      ∈ List.insertionSort itemBefore (buildWorkItems (env.specsOf path) (env.bugsOf path)) :=
    hperm.mem_iff.mpr (hbuild ▸ hitem)
  obtain ⟨w, t, heq⟩ : ∃ w t, List.insertionSort itemBefore
      (buildWorkItems (env.specsOf path) (env.bugsOf path)) = w :: t := by
    cases hh : List.insertionSort itemBefore
        (buildWorkItems (env.specsOf path) (env.bugsOf path)) with
    | nil => rw [hh] at hmem_sorted; exact absurd hmem_sorted (List.not_mem_nil _)
    | cons w t => exact ⟨w, t, rfl⟩
  have hw100 : 100 ≤ w.priority := by
    rw [heq] at hmem_sorted
    rcases List.mem_cons.mp hmem_sorted with hwe | hint
    · rw [← hwe]
    · have hsorted := List.sorted_insertionSort itemBefore
        (buildWorkItems (env.specsOf path) (env.bugsOf path))
      rw [heq] at hsorted
      exact itemBefore_priority_le (List.rel_of_sorted_cons hsorted _ hint)
  have hwmem : w ∈ primaryWorkItems (env.specsOf path) (env.bugsOf path) := by
    have : w ∈ List.insertionSort itemBefore
        (buildWorkItems (env.specsOf path) (env.bugsOf path)) := by
      rw [heq]; exact List.mem_cons_self w t
    exact hbuild ▸ hperm.mem_iff.mp this
  rcases primaryWorkItems_mem_cases hwmem with ⟨s2, hs2, hsp2, hw⟩ | ⟨b2, _, _, hw⟩
  · refine ⟨SpecSessionData.mk s2.name (some s2.status) s2.tasks
      ((specActiveTask s2).getD (placeholderTask s2)) false, ?_, rfl, s2, hs2, hsp2, rfl⟩
    unfold resolveSession
    rw [heq]
    simp only [List.head?_cons]
    rw [hw]
    rfl
  · rw [hw] at hw100
    simp at hw100

/-- C2 witness: one in-progress spec and one active (and even more
recently modified) bug; the resolver still renders the spec. -/
theorem resolver_prefers_spec_witness :
    (∃ s ∈ (Env.mk
        (fun _ => [SpecRec.mk "alpha" (some "Alpha") "in-progress" (some 50)
          (some (TasksInfo.mk (some "2.3") []))])
        (fun _ => [BugRec.mk "crash" none BugStatus.fixing (some 99) none]) id).specsOf "/w",
      specHasInProgress s = true) ∧
    (∃ b ∈ (Env.mk
        (fun _ => [SpecRec.mk "alpha" (some "Alpha") "in-progress" (some 50)
          (some (TasksInfo.mk (some "2.3") []))])
        (fun _ => [BugRec.mk "crash" none BugStatus.fixing (some 99) none]) id).bugsOf "/w",
      bugIsActive b = true) ∧
    (∃ d, (resolveSession (Env.mk
        (fun _ => [SpecRec.mk "alpha" (some "Alpha") "in-progress" (some 50)
          (some (TasksInfo.mk (some "2.3") []))])
        (fun _ => [BugRec.mk "crash" none BugStatus.fixing (some 99) none]) id)
        0 "/w" (DiscoveredProject.mk "/w" "W" true none none)).variant
          = SessionVariant.spec d ∧
      d.isAdHoc = false ∧
      ∃ s ∈ (Env.mk
        (fun _ => [SpecRec.mk "alpha" (some "Alpha") "in-progress" (some 50)
          (some (TasksInfo.mk (some "2.3") []))])
        (fun _ => [BugRec.mk "crash" none BugStatus.fixing (some 99) none]) id).specsOf "/w",
        specHasInProgress s = true ∧ d.specName = s.name) :=
  ⟨by decide, by decide,
    resolver_prefers_spec _ 0 "/w" (DiscoveredProject.mk "/w" "W" true none none)
      (by decide) (by decide)⟩

/-- The resolver either renders the head of the sorted candidate list
(which belongs to the candidate list) or, when there is no candidate,
the ad-hoc session. -/
theorem resolveSession_head_cases (env : Env) (now : Nat) (path : String)
    (proj : DiscoveredProject) :
    (∃ w ∈ buildWorkItems (env.specsOf path) (env.bugsOf path),
        resolveSession env now path proj = renderWorkItem path proj w) ∨
    (buildWorkItems (env.specsOf path) (env.bugsOf path) = [] ∧
        resolveSession env now path proj = adHocSession now path proj) := by
  unfold resolveSession
  cases hh : (List.insertionSort itemBefore
      (buildWorkItems (env.specsOf path) (env.bugsOf path))).head? with
  | none =>
    right
    rw [List.head?_eq_none_iff] at hh
    refine ⟨?_, rfl⟩
    have hperm := List.perm_insertionSort itemBefore
      (buildWorkItems (env.specsOf path) (env.bugsOf path))
    rw [hh] at hperm
    exact (hperm.symm).eq_nil
  | some w =>
    left
    have hmem : w ∈ List.insertionSort itemBefore
        (buildWorkItems (env.specsOf path) (env.bugsOf path)) :=
      List.mem_of_mem_head? (by rw [hh]; exact rfl)
    exact ⟨w, (List.perm_insertionSort itemBefore _).mem_iff.mp hmem, rfl⟩

/-! ### Claim theorem: bug-variant rendering (C5) -/

/-- C5. Every rendered bug-variant session carries the fixed
status-to-next-command table value and the bug's severity. -/
theorem bug_session_rendering (env : Env) (now : Nat) (path : String)
    (proj : DiscoveredProject) (d : BugSessionData)
    (h : (resolveSession env now path proj).variant = SessionVariant.bug d) :
    ∃ b ∈ env.bugsOf path, d.bugName = b.name ∧ d.bugStatus = b.status ∧
      d.bugSeverity = b.report.bind BugReport.severity ∧
      (b.status = BugStatus.reported → d.nextCommand = "/bug-analyze " ++ b.name) ∧
      (b.status = BugStatus.analyzing → d.nextCommand = "/bug-analyze " ++ b.name) ∧
      (b.status = BugStatus.fixing → d.nextCommand = "/bug-fix " ++ b.name) ∧
      (b.status = BugStatus.verifying → d.nextCommand = "/bug-verify " ++ b.name) ∧
      (b.status = BugStatus.fixed → d.nextCommand = "/bug-verify " ++ b.name) ∧
      (b.status = BugStatus.resolved → d.nextCommand = "") := by
  rcases resolveSession_head_cases env now path proj with ⟨w, hw, heq⟩ | ⟨_, heq⟩
  · rw [heq] at h
    rcases href : w.ref with s | b
    · simp [renderWorkItem, href, renderSpecSession] at h
    · simp only [renderWorkItem, href, renderBugSession] at h
      injection h with hd
      subst hd
      refine ⟨b, (buildWorkItems_mem_ref hw).2 b href, rfl, rfl, rfl, ?_, ?_, ?_, ?_, ?_, ?_⟩
        <;> intro hst <;> simp [bugNextCommand, hst]
  · rw [heq] at h
    simp [adHocSession] at h

/-- C5 witness: a bug in status `fixed` renders with next command
`/bug-verify` and its severity carried through. -/
theorem bug_session_rendering_witness :
    ((resolveSession
        (Env.mk (fun _ => [])
          (fun _ => [BugRec.mk "crash" none BugStatus.fixed (some 3)
            (some (BugReport.mk (some BugSeverity.low)))]) id)
        0 "/w" (DiscoveredProject.mk "/w" "W" true none none)).variant
      = SessionVariant.bug (BugSessionData.mk "crash" BugStatus.fixed
          (some BugSeverity.low) "/bug-verify crash")) ∧
    (∃ b ∈ (Env.mk (fun _ => [])
          (fun _ => [BugRec.mk "crash" none BugStatus.fixed (some 3)
            (some (BugReport.mk (some BugSeverity.low)))]) id).bugsOf "/w",
      (BugSessionData.mk "crash" BugStatus.fixed (some BugSeverity.low)
          "/bug-verify crash").bugName = b.name ∧
      (BugSessionData.mk "crash" BugStatus.fixed (some BugSeverity.low)
          "/bug-verify crash").bugStatus = b.status ∧
      (BugSessionData.mk "crash" BugStatus.fixed (some BugSeverity.low)
          "/bug-verify crash").bugSeverity = b.report.bind BugReport.severity ∧
      (b.status = BugStatus.reported →
        (BugSessionData.mk "crash" BugStatus.fixed (some BugSeverity.low)
          "/bug-verify crash").nextCommand = "/bug-analyze " ++ b.name) ∧
      (b.status = BugStatus.analyzing →
        (BugSessionData.mk "crash" BugStatus.fixed (some BugSeverity.low)
          "/bug-verify crash").nextCommand = "/bug-analyze " ++ b.name) ∧
      (b.status = BugStatus.fixing →
        (BugSessionData.mk "crash" BugStatus.fixed (some BugSeverity.low)
          "/bug-verify crash").nextCommand = "/bug-fix " ++ b.name) ∧
      (b.status = BugStatus.verifying →
        (BugSessionData.mk "crash" BugStatus.fixed (some BugSeverity.low)
          "/bug-verify crash").nextCommand = "/bug-verify " ++ b.name) ∧
      (b.status = BugStatus.fixed →
        (BugSessionData.mk "crash" BugStatus.fixed (some BugSeverity.low)
          "/bug-verify crash").nextCommand = "/bug-verify " ++ b.name) ∧
      (b.status = BugStatus.resolved →
        (BugSessionData.mk "crash" BugStatus.fixed (some BugSeverity.low)
          "/bug-verify crash").nextCommand = "")) :=
  ⟨rfl,
    bug_session_rendering
      (Env.mk (fun _ => [])
        (fun _ => [BugRec.mk "crash" none BugStatus.fixed (some 3)
          (some (BugReport.mk (some BugSeverity.low)))]) id)
      0 "/w" (DiscoveredProject.mk "/w" "W" true none none)
      (BugSessionData.mk "crash" BugStatus.fixed (some BugSeverity.low)
        "/bug-verify crash") rfl⟩

/-! ### Claim theorem: spec-variant task selection (C6) -/

/-- C6. Every rendered (non-ad-hoc) spec-variant session's task is the
result of the recursive task-tree search, or the synthesized
placeholder `{id: "session", description: <spec display name>,
completed: false}` when that search finds nothing (including the
fallback case with no in-progress id). -/
theorem spec_session_task (env : Env) (now : Nat) (path : String)
    (proj : DiscoveredProject) (d : SpecSessionData)
    (h : (resolveSession env now path proj).variant = SessionVariant.spec d)
    (hAd : d.isAdHoc = false) :
    ∃ s ∈ env.specsOf path, d.specName = s.name ∧
      d.task = (specActiveTask s).getD (placeholderTask s) ∧
      (∀ t, specActiveTask s = some t → d.task = t) ∧
      (specActiveTask s = none →
        d.task = Task.mk "session" (s.displayName.getD s.name) false []) := by
  rcases resolveSession_head_cases env now path proj with ⟨w, hw, heq⟩ | ⟨_, heq⟩
  · rw [heq] at h
    rcases href : w.ref with s | b
    · simp only [renderWorkItem, href, renderSpecSession] at h
      injection h with hd
      subst hd
      refine ⟨s, (buildWorkItems_mem_ref hw).1 s href, rfl, rfl, ?_, ?_⟩
      · intro t ht
        show ((specActiveTask s).getD (placeholderTask s)) = t
        rw [ht]
        rfl
      · intro hnone
        show ((specActiveTask s).getD (placeholderTask s))
          = Task.mk "session" (s.displayName.getD s.name) false []
        rw [hnone]
        rfl
    · simp [renderWorkItem, href, renderBugSession] at h
  · rw [heq] at h
    simp only [adHocSession] at h
    injection h with hd
    rw [← hd] at hAd
    simp at hAd

/-- C6 witness: an in-progress id `2.3` found by recursive descent into
subtasks; the rendered task is the found subtask. -/
theorem spec_session_task_witness :
    ((resolveSession
        (Env.mk (fun _ => [SpecRec.mk "alpha" (some "Alpha") "in-progress" (some 50)
            (some (TasksInfo.mk (some "2.3")
              [Task.mk "1" "one" true [],
               Task.mk "2" "two" false [Task.mk "2.3" "deep" false []]]))])
          (fun _ => []) id)
        0 "/w" (DiscoveredProject.mk "/w" "W" true none none)).variant
      = SessionVariant.spec (SpecSessionData.mk "alpha" (some "in-progress")
          (some (TasksInfo.mk (some "2.3")
            [Task.mk "1" "one" true [],
             Task.mk "2" "two" false [Task.mk "2.3" "deep" false []]]))
          (Task.mk "2.3" "deep" false []) false)) ∧
    ((SpecSessionData.mk "alpha" (some "in-progress")
        (some (TasksInfo.mk (some "2.3")
          [Task.mk "1" "one" true [],
           Task.mk "2" "two" false [Task.mk "2.3" "deep" false []]]))
        (Task.mk "2.3" "deep" false []) false).isAdHoc = false) ∧
    (∃ s ∈ (Env.mk (fun _ => [SpecRec.mk "alpha" (some "Alpha") "in-progress" (some 50)
            (some (TasksInfo.mk (some "2.3")
              [Task.mk "1" "one" true [],
               Task.mk "2" "two" false [Task.mk "2.3" "deep" false []]]))])
          (fun _ => []) id).specsOf "/w",
      (SpecSessionData.mk "alpha" (some "in-progress")
          (some (TasksInfo.mk (some "2.3")
            [Task.mk "1" "one" true [],
             Task.mk "2" "two" false [Task.mk "2.3" "deep" false []]]))
          (Task.mk "2.3" "deep" false []) false).specName = s.name ∧
      (SpecSessionData.mk "alpha" (some "in-progress")
          (some (TasksInfo.mk (some "2.3")
            [Task.mk "1" "one" true [],
             Task.mk "2" "two" false [Task.mk "2.3" "deep" false []]]))
          (Task.mk "2.3" "deep" false []) false).task
        = (specActiveTask s).getD (placeholderTask s) ∧
      (∀ t, specActiveTask s = some t →
        (SpecSessionData.mk "alpha" (some "in-progress")
          (some (TasksInfo.mk (some "2.3")
            [Task.mk "1" "one" true [],
             Task.mk "2" "two" false [Task.mk "2.3" "deep" false []]]))
          (Task.mk "2.3" "deep" false []) false).task = t) ∧
      (specActiveTask s = none →
        (SpecSessionData.mk "alpha" (some "in-progress")
          (some (TasksInfo.mk (some "2.3")
            [Task.mk "1" "one" true [],
             Task.mk "2" "two" false [Task.mk "2.3" "deep" false []]]))
          (Task.mk "2.3" "deep" false []) false).task
          = Task.mk "session" (s.displayName.getD s.name) false [])) :=
  ⟨rfl, rfl,
    spec_session_task
      (Env.mk (fun _ => [SpecRec.mk "alpha" (some "Alpha") "in-progress" (some 50)
          (some (TasksInfo.mk (some "2.3")
            [Task.mk "1" "one" true [],
             Task.mk "2" "two" false [Task.mk "2.3" "deep" false []]]))])
        (fun _ => []) id)
      0 "/w" (DiscoveredProject.mk "/w" "W" true none none)
      (SpecSessionData.mk "alpha" (some "in-progress")
        (some (TasksInfo.mk (some "2.3")
          [Task.mk "1" "one" true [],
           Task.mk "2" "two" false [Task.mk "2.3" "deep" false []]]))
        (Task.mk "2.3" "deep" false []) false) rfl rfl⟩

/-! ### Claim theorem: ad-hoc fallback session (C7) -/

/-- C7. A workspace with an attached process but an empty candidate
list even after fallback yields exactly one synthetic ad-hoc
spec-variant session with the fixed placeholder task. -/
theorem adhoc_session_emitted (env : Env) (now : Nat) (path : String)
    (proj : DiscoveredProject)
    (hA : proj.hasActiveSession = true)
    (hE : buildWorkItems (env.specsOf path) (env.bugsOf path) = []) :
    collectActiveSessions env now [(path, proj)] = [adHocSession now path proj] ∧
    ∃ d, (adHocSession now path proj).variant = SessionVariant.spec d ∧
      d.isAdHoc = true ∧ d.specName = "ad-hoc-session" ∧
      d.task = Task.mk "session" "Active Claude session" false [] := by
  have hres : resolveSession env now path proj = adHocSession now path proj := by
    unfold resolveSession
    rw [hE]
    rfl
  constructor
  · unfold collectActiveSessions
    rw [List.filterMap_cons, List.filterMap_nil, if_pos hA, hres]
    rfl
  · exact ⟨_, rfl, rfl, rfl, rfl⟩

/-- C7 witness: a workspace whose only spec is completed (with no
in-progress task) and whose only bug is resolved gets the ad-hoc
session. -/
theorem adhoc_session_emitted_witness :
    ((DiscoveredProject.mk "/w" "W" true none none).hasActiveSession = true) ∧
    (buildWorkItems
      ((Env.mk (fun _ => [SpecRec.mk "done" none "completed" none none])
        (fun _ => [BugRec.mk "b" none BugStatus.resolved none none]) id).specsOf "/w")
      ((Env.mk (fun _ => [SpecRec.mk "done" none "completed" none none])
        (fun _ => [BugRec.mk "b" none BugStatus.resolved none none]) id).bugsOf "/w") = []) ∧
    (collectActiveSessions
        (Env.mk (fun _ => [SpecRec.mk "done" none "completed" none none])
          (fun _ => [BugRec.mk "b" none BugStatus.resolved none none]) id)
        7 [("/w", DiscoveredProject.mk "/w" "W" true none none)]
      = [adHocSession 7 "/w" (DiscoveredProject.mk "/w" "W" true none none)] ∧
    ∃ d, (adHocSession 7 "/w" (DiscoveredProject.mk "/w" "W" true none none)).variant
        = SessionVariant.spec d ∧
      d.isAdHoc = true ∧ d.specName = "ad-hoc-session" ∧
      d.task = Task.mk "session" "Active Claude session" false []) :=
  ⟨rfl, rfl,
    adhoc_session_emitted
      (Env.mk (fun _ => [SpecRec.mk "done" none "completed" none none])
        (fun _ => [BugRec.mk "b" none BugStatus.resolved none none]) id)
      7 "/w" (DiscoveredProject.mk "/w" "W" true none none) rfl rfl⟩

/-! ### Claim theorem: tunnel stop is a safe no-op (C8) -/

/-- C8. In any server state in which no tunnel is active, the tunnel
stop operation succeeds without error and leaves the tunnel state
unchanged. -/
theorem tunnel_stop_noop (m : Option TunnelState)
    (h : ∀ t ∈ m, t.active = false) :
    stopTunnelIfPresent m = Except.ok m := by
  cases m with
  | none => rfl
  | some t =>
    have ht : t.active = false := h t rfl
    simp [stopTunnelIfPresent, stopTunnel, ht, Except.map]

/-- C8 witness: a present tunnel manager whose tunnel is inactive. -/
theorem tunnel_stop_noop_witness :
    (∀ t ∈ (some (TunnelState.mk false none) : Option TunnelState), t.active = false) ∧
    stopTunnelIfPresent (some (TunnelState.mk false none))
      = Except.ok (some (TunnelState.mk false none)) :=
  ⟨fun t ht => by rw [Option.mem_def] at ht; injection ht with h2; rw [← h2],
    tunnel_stop_noop (some (TunnelState.mk false none))
      (fun t ht => by rw [Option.mem_def] at ht; injection ht with h2; rw [← h2])⟩

/-! ### Claim theorems: teardown order (C9) -/

theorem runSteps_initialSegment (fails : StopStep → Bool) :
    ∀ l : List StopStep, (runSteps fails l).1 <+: l
  | [] => List.prefix_rfl
  | st :: rest => by
    unfold runSteps
    split
    · exact ⟨rest, rfl⟩
    · obtain ⟨t, ht⟩ := runSteps_initialSegment fails rest
      exact ⟨t, by simp [ht]⟩

theorem runSteps_all_ok (fails : StopStep → Bool) (h : ∀ st, fails st = false) :
    ∀ l : List StopStep, runSteps fails l = (l, true)
  | [] => rfl
  | st :: rest => by
    unfold runSteps
    rw [h st]
    simp [runSteps_all_ok fails h rest]

/-- C9 counterexample.  At the concrete server state below (timer
running, one project, a tunnel manager, one open client): with no
failures the executed teardown cancels the timer *before* releasing the
watcher, refuting the claimed notifiers-then-timer order; and with a
failing watcher stop the tunnel teardown step never runs, refuting the
claim that every step runs even if an earlier step fails. -/
theorem stop_teardown_counterexample :
    (¬ ∀ (fails : StopStep → Bool) (l1 l2 : List StopStep) (p : String),
        (runStop fails (ServerState.mk true
            [("/w", DiscoveredProject.mk "/w" "W" true none none)]
            (some (TunnelState.mk true none)) [Client.mk 0 1])).1
          = l1 ++ StopStep.cancelTimer :: l2 → StopStep.stopWatcher p ∉ l2) ∧
    (¬ ∀ (fails : StopStep → Bool), ∀ st ∈ stopSequence (ServerState.mk true
            [("/w", DiscoveredProject.mk "/w" "W" true none none)]
            (some (TunnelState.mk true none)) [Client.mk 0 1]),
        st ∈ (runStop fails (ServerState.mk true
            [("/w", DiscoveredProject.mk "/w" "W" true none none)]
            (some (TunnelState.mk true none)) [Client.mk 0 1])).1) := by
  constructor
  · intro h1
    exact h1 (fun _ => false) []
      [StopStep.stopWatcher "/w", StopStep.stopTunnelStep, StopStep.closeChannel 0,
       StopStep.clearClients, StopStep.closeServer] "/w" (by decide) (by decide)
  · intro h2
    have hmem := h2 (fun st => decide (st = StopStep.stopWatcher "/w"))
      StopStep.stopTunnelStep (by decide)
    exact absurd hmem (by decide)

/-- C9 amended: the teardown steps run in the source order — cancel the
reconciliation timer, release every notifier, stop the tunnel if a
manager exists, close every open viewer channel, clear the client set,
close the server — and teardown is fail-fast, not best-effort: the
executed steps always form a prefix of that order, and all of them run
exactly when no step fails. -/
theorem stop_teardown_order (s : ServerState) (fails : StopStep → Bool) :
    (runStop fails s).1 <+: stopSequence s ∧
    ((∀ st, fails st = false) → runStop fails s = (stopSequence s, true)) :=
  ⟨runSteps_initialSegment fails (stopSequence s), fun h => runSteps_all_ok fails h (stopSequence s)⟩

/-- C9 witness: with no failing step, the teardown at the concrete
state runs every step in the source order. -/
theorem stop_teardown_order_witness :
    (runStop (fun _ => false) (ServerState.mk true
        [("/w", DiscoveredProject.mk "/w" "W" true none none)]
        (some (TunnelState.mk true none)) [Client.mk 0 1])).1
      <+: stopSequence (ServerState.mk true
        [("/w", DiscoveredProject.mk "/w" "W" true none none)]
        (some (TunnelState.mk true none)) [Client.mk 0 1]) ∧
    runStop (fun _ => false) (ServerState.mk true
        [("/w", DiscoveredProject.mk "/w" "W" true none none)]
        (some (TunnelState.mk true none)) [Client.mk 0 1])
      = (stopSequence (ServerState.mk true
        [("/w", DiscoveredProject.mk "/w" "W" true none none)]
        (some (TunnelState.mk true none)) [Client.mk 0 1]), true) :=
  ⟨(stop_teardown_order (ServerState.mk true
        [("/w", DiscoveredProject.mk "/w" "W" true none none)]
        (some (TunnelState.mk true none)) [Client.mk 0 1]) (fun _ => false)).1,
   (stop_teardown_order (ServerState.mk true
        [("/w", DiscoveredProject.mk "/w" "W" true none none)]
        (some (TunnelState.mk true none)) [Client.mk 0 1]) (fun _ => false)).2
      (fun _ => rfl)⟩

/-! ### Helper lemmas for reconciliation idempotence (C4) -/

/-- Whether a session is the synthetic ad-hoc one (the only session
whose `lastModified` is the wall clock rather than parsed data). -/
def sessionIsAdHoc (s : ActiveSession) : Bool :=
  match s.variant with
  | SessionVariant.spec d => d.isAdHoc
  | SessionVariant.bug _ => false

/-- Re-stamp the ad-hoc session with a different wall-clock time. -/
def sessionAdjust (now : Nat) (s : ActiveSession) : ActiveSession :=
  if sessionIsAdHoc s then { s with lastModified := now } else s

theorem renderWorkItem_not_adHoc (path : String) (proj : DiscoveredProject) (w : WorkItem) :
    sessionIsAdHoc (renderWorkItem path proj w) = false := by
  rcases hw : w.ref with s | b <;>
    simp [renderWorkItem, hw, renderSpecSession, renderBugSession, sessionIsAdHoc]

/-- The resolver's output at a different wall-clock time differs only
in the ad-hoc re-stamp. -/
theorem resolveSession_adjust (env : Env) (now1 now2 : Nat) (path : String)
    (proj : DiscoveredProject) :
    resolveSession env now2 path proj
      = sessionAdjust now2 (resolveSession env now1 path proj) := by
  unfold resolveSession
  cases (List.insertionSort itemBefore
      (buildWorkItems (env.specsOf path) (env.bugsOf path))).head? with
  | none => rfl
  | some w =>
    rw [sessionAdjust, if_neg]
    rw [renderWorkItem_not_adHoc]
    simp

theorem sessionAdjust_projectName (n : Nat) (s : ActiveSession) :
    (sessionAdjust n s).projectName = s.projectName := by
  unfold sessionAdjust
  split <;> rfl

theorem sessionAdjust_isCurrentlyActive (n : Nat) (s : ActiveSession) :
    (sessionAdjust n s).isCurrentlyActive = s.isCurrentlyActive := by
  unfold sessionAdjust
  split <;> rfl

theorem sessionBefore_adjust (n : Nat) (a b : ActiveSession) :
    sessionBefore (sessionAdjust n a) (sessionAdjust n b) ↔ sessionBefore a b := by
  unfold sessionBefore sessionRank
  rw [sessionAdjust_projectName, sessionAdjust_projectName,
    sessionAdjust_isCurrentlyActive, sessionAdjust_isCurrentlyActive]

/-- `orderedInsert` commutes with mapping a function that preserves the
comparator. -/
theorem orderedInsert_map_congr {α : Type} (r : α → α → Prop) [DecidableRel r] (g : α → α)
    (hg : ∀ a b, r (g a) (g b) ↔ r a b) (a : α) :
    ∀ l : List α, List.orderedInsert r (g a) (l.map g) = (List.orderedInsert r a l).map g
  | [] => rfl
  | b :: l => by
    simp only [List.map_cons, List.orderedInsert]
    by_cases h : r a b
    · rw [if_pos ((hg a b).mpr h), if_pos h, List.map_cons, List.map_cons]
    · rw [if_neg (fun hc => h ((hg a b).mp hc)), if_neg h, List.map_cons,
        orderedInsert_map_congr r g hg a l]

/-- `insertionSort` commutes with mapping a function that preserves the
comparator. -/
theorem insertionSort_map_congr {α : Type} (r : α → α → Prop) [DecidableRel r] (g : α → α)
    (hg : ∀ a b, r (g a) (g b) ↔ r a b) :
    ∀ l : List α, List.insertionSort r (l.map g) = (List.insertionSort r l).map g
  | [] => rfl
  | a :: l => by
    simp only [List.map_cons, List.insertionSort]
    rw [insertionSort_map_congr r g hg l, orderedInsert_map_congr r g hg a]

/-- Recomputing the snapshot at a different wall-clock time only
re-stamps ad-hoc sessions. -/
theorem collect_adjust (env : Env) (now1 now2 : Nat)
    (reg : List (String × DiscoveredProject)) :
    collectActiveSessions env now2 reg
      = (collectActiveSessions env now1 reg).map (sessionAdjust now2) := by
  unfold collectActiveSessions
  rw [← insertionSort_map_congr sessionBefore (sessionAdjust now2) (sessionBefore_adjust now2)]
  congr 1
  rw [List.map_filterMap]
  have hfun : (fun (e : String × DiscoveredProject) =>
        if e.2.hasActiveSession then some (resolveSession env now2 e.1 e.2) else none)
      = fun e => Option.map (sessionAdjust now2)
        (if e.2.hasActiveSession then some (resolveSession env now1 e.1 e.2) else none) := by
    funext e
    by_cases h : e.2.hasActiveSession = true
    · rw [if_pos h, if_pos h, resolveSession_adjust env now1 now2]
      rfl
    · rw [if_neg h, if_neg h]
      rfl
  rw [hfun]

theorem eraseTimestamps_map_adjust (n : Nat) (l : List ActiveSession) :
    eraseTimestamps (l.map (sessionAdjust n)) = eraseTimestamps l := by
  unfold eraseTimestamps
  rw [List.map_map]
  congr 1
  funext s
  show ({ sessionAdjust n s with lastModified := 0 } : ActiveSession)
    = { s with lastModified := 0 }
  unfold sessionAdjust
  split <;> rfl

theorem hasKey_append_single (reg : List (String × DiscoveredProject))
    (e : String × DiscoveredProject) (q : String) :
    hasKey (reg ++ [e]) q = (hasKey reg q || decide (e.1 = q)) := by
  unfold hasKey
  rw [List.any_append]
  simp

/-- The new-project loop never removes keys. -/
theorem rescanAdditionsAux_hasKey_mono (env : Env) :
    ∀ (l : List DiscoveredProject) (acc : AddResult) (q : String),
      hasKey acc.registry q = true → hasKey (rescanAdditionsAux env l acc).registry q = true
  | [], _, _, h => h
  | p :: rest, acc, q, h => by
    unfold rescanAdditionsAux
    apply rescanAdditionsAux_hasKey_mono env rest _ q
    unfold addStep
    split
    · exact h
    · show hasKey (acc.registry ++ [(env.norm p.path, { p with path := env.norm p.path })]) q
        = true
      rw [hasKey_append_single, h, Bool.true_or]

/-- After the new-project loop, every discovered workspace (whose path
is canonical) is registered. -/
theorem rescanAdditionsAux_hasKey_all (env : Env) :
    ∀ (l : List DiscoveredProject) (acc : AddResult),
      (∀ p ∈ l, env.norm p.path = p.path) →
      ∀ p ∈ l, hasKey (rescanAdditionsAux env l acc).registry p.path = true
  | [], _, _, p, hp => absurd hp (List.not_mem_nil p)
  | q :: rest, acc, hn, p, hp => by
    unfold rescanAdditionsAux
    rcases List.mem_cons.mp hp with rfl | hp2
    · apply rescanAdditionsAux_hasKey_mono
      unfold addStep
      split
      · next h => exact h
      · show hasKey (acc.registry ++ [(env.norm p.path, { p with path := env.norm p.path })])
            p.path = true
        rw [hasKey_append_single, hn p (List.mem_cons_self p rest)]
        simp
    · exact rescanAdditionsAux_hasKey_all env rest _
        (fun x hx => hn x (List.mem_cons_of_mem q hx)) p hp2

/-- When every discovered workspace is already registered, the
new-project loop changes nothing and emits no message. -/
theorem rescanAdditionsAux_noop (env : Env) :
    ∀ (l : List DiscoveredProject) (acc : AddResult),
      (∀ p ∈ l, hasKey acc.registry p.path = true) →
      rescanAdditionsAux env l acc
        = { registry := acc.registry, added := acc.added, discovered := acc.discovered ++ l }
  | [], acc, _ => by cases acc; simp [rescanAdditionsAux]
  | p :: rest, acc, h => by
    unfold rescanAdditionsAux addStep
    rw [if_pos (h p (List.mem_cons_self p rest))]
    rw [rescanAdditionsAux_noop env rest
      { registry := acc.registry, added := acc.added, discovered := acc.discovered ++ [p] }
      (fun x hx => h x (List.mem_cons_of_mem p hx))]
    simp

/-- When discovered paths are canonical, in-place canonicalization does
not change the discovery array. -/
theorem rescanAdditionsAux_discovered_id (env : Env) :
    ∀ (l : List DiscoveredProject) (acc : AddResult),
      (∀ p ∈ l, env.norm p.path = p.path) →
      (rescanAdditionsAux env l acc).discovered = acc.discovered ++ l
  | [], acc, _ => by simp [rescanAdditionsAux]
  | p :: rest, acc, hn => by
    unfold rescanAdditionsAux addStep
    have hp : env.norm p.path = p.path := hn p (List.mem_cons_self p rest)
    have heta : ({ p with path := env.norm p.path } : DiscoveredProject) = p := by
      rw [hp]
    split
    · rw [rescanAdditionsAux_discovered_id env rest
        { registry := acc.registry, added := acc.added, discovered := acc.discovered ++ [p] }
        (fun x hx => hn x (List.mem_cons_of_mem p hx))]
      simp
    · rw [rescanAdditionsAux_discovered_id env rest
        { registry := acc.registry ++ [(env.norm p.path, { p with path := env.norm p.path })]
          added := acc.added ++ [env.norm p.path]
          discovered := acc.discovered ++ [{ p with path := env.norm p.path }] }
        (fun x hx => hn x (List.mem_cons_of_mem p hx))]
      show (acc.discovered ++ [{ p with path := env.norm p.path }]) ++ rest
        = acc.discovered ++ p :: rest
      rw [heta]
      simp

/-! ### Claim theorem: reconciliation idempotence (C4) -/

/-- C4. Re-running the reconciliation pass against unchanged discovery
and parser results emits zero `new-project` and zero `remove-project`
messages, leaves the registry unchanged, and reproduces the first
pass's active-session snapshot up to the wall-clock timestamp of ad-hoc
sessions (the only timestamp not derived from parsed data). -/
theorem rescan_idempotent (env : Env) (now1 now2 : Nat)
    (discovered : List DiscoveredProject)
    (reg0 : List (String × DiscoveredProject))
    (hnorm : ∀ p ∈ discovered, env.norm p.path = p.path) :
    (rescanPass env now2 discovered
        (rescanPass env now1 discovered reg0).registry).added = [] ∧
    (rescanPass env now2 discovered
        (rescanPass env now1 discovered reg0).registry).removed = [] ∧
    (rescanPass env now2 discovered
        (rescanPass env now1 discovered reg0).registry).registry
      = (rescanPass env now1 discovered reg0).registry ∧
    eraseTimestamps (rescanPass env now2 discovered
        (rescanPass env now1 discovered reg0).registry).snapshot
      = eraseTimestamps (rescanPass env now1 discovered reg0).snapshot := by
  have hd1 : (rescanAdditions env discovered reg0).discovered = discovered := by
    have h := rescanAdditionsAux_discovered_id env discovered
      { registry := reg0, added := [], discovered := [] } hnorm
    simpa [rescanAdditions] using h
  have hR1 : (rescanPass env now1 discovered reg0).registry
      = (rescanAdditions env discovered reg0).registry.filter
        (fun e => discovered.any (fun p => p.path = e.1)) := by
    unfold rescanPass
    rw [hd1]
  have hR1mem : ∀ e ∈ (rescanPass env now1 discovered reg0).registry,
      discovered.any (fun p => p.path = e.1) = true := by
    intro e he
    rw [hR1] at he
    exact (List.mem_filter.mp he).2
  have hkeysR1 : ∀ p ∈ discovered,
      hasKey (rescanPass env now1 discovered reg0).registry p.path = true := by
    intro p hp
    have h1 : hasKey (rescanAdditions env discovered reg0).registry p.path = true :=
      rescanAdditionsAux_hasKey_all env discovered
        { registry := reg0, added := [], discovered := [] } hnorm p hp
    unfold hasKey at h1 ⊢
    rw [List.any_eq_true] at h1 ⊢
    obtain ⟨e, he, hk⟩ := h1
    rw [decide_eq_true_eq] at hk
    refine ⟨e, ?_, by rw [decide_eq_true_eq]; exact hk⟩
    rw [hR1]
    refine List.mem_filter.mpr ⟨he, ?_⟩
    rw [List.any_eq_true]
    exact ⟨p, hp, by rw [decide_eq_true_eq]; exact hk.symm⟩
  have hnoop : rescanAdditions env discovered (rescanPass env now1 discovered reg0).registry
      = { registry := (rescanPass env now1 discovered reg0).registry, added := [],
          discovered := discovered } := by
    unfold rescanAdditions
    rw [rescanAdditionsAux_noop env discovered _ (fun p hp => hkeysR1 p hp)]
    simp
  have hfilter_self : (rescanPass env now1 discovered reg0).registry.filter
        (fun e => discovered.any (fun p => p.path = e.1))
      = (rescanPass env now1 discovered reg0).registry :=
    List.filter_eq_self.mpr hR1mem
  refine ⟨?_, ?_, ?_, ?_⟩
  · show (rescanAdditions env discovered (rescanPass env now1 discovered reg0).registry).added
      = []
    rw [hnoop]
  · show ((rescanAdditions env discovered
        (rescanPass env now1 discovered reg0).registry).registry.filter
      (fun e => ! (rescanAdditions env discovered
        (rescanPass env now1 discovered reg0).registry).discovered.any
          (fun p => p.path = e.1))).map Prod.fst = []
    rw [hnoop]
    have : (rescanPass env now1 discovered reg0).registry.filter
        (fun e => ! discovered.any (fun p => p.path = e.1)) = [] := by
      rw [List.filter_eq_nil_iff]
      intro e he
      rw [hR1mem e he]
      simp
    rw [this]
    rfl
  · show (rescanAdditions env discovered
        (rescanPass env now1 discovered reg0).registry).registry.filter
      (fun e => (rescanAdditions env discovered
        (rescanPass env now1 discovered reg0).registry).discovered.any
          (fun p => p.path = e.1))
      = (rescanPass env now1 discovered reg0).registry
    rw [hnoop]
    exact hfilter_self
  · show eraseTimestamps (collectActiveSessions env now2
        ((rescanAdditions env discovered
          (rescanPass env now1 discovered reg0).registry).registry.filter
        (fun e => (rescanAdditions env discovered
          (rescanPass env now1 discovered reg0).registry).discovered.any
            (fun p => p.path = e.1))))
      = eraseTimestamps (rescanPass env now1 discovered reg0).snapshot
    rw [hnoop]
    rw [hfilter_self]
    have hsnap1 : (rescanPass env now1 discovered reg0).snapshot
        = collectActiveSessions env now1 (rescanPass env now1 discovered reg0).registry := by
      unfold rescanPass
      rfl
    rw [hsnap1, collect_adjust env now1 now2, eraseTimestamps_map_adjust]

/-- C4 witness: two rescans against a fixed discovery result of two
workspaces, one already registered, starting from a stale registry. -/
theorem rescan_idempotent_witness :
    (∀ p ∈ [DiscoveredProject.mk "/w" "W" true none none,
            DiscoveredProject.mk "/b" "B" false none none],
      (Env.mk (fun _ => []) (fun _ => []) id).norm p.path = p.path) ∧
    ((rescanPass (Env.mk (fun _ => []) (fun _ => []) id) 2
        [DiscoveredProject.mk "/w" "W" true none none,
         DiscoveredProject.mk "/b" "B" false none none]
        (rescanPass (Env.mk (fun _ => []) (fun _ => []) id) 1
          [DiscoveredProject.mk "/w" "W" true none none,
           DiscoveredProject.mk "/b" "B" false none none]
          [("/old", DiscoveredProject.mk "/old" "Old" false none none)]).registry).added = [] ∧
    (rescanPass (Env.mk (fun _ => []) (fun _ => []) id) 2
        [DiscoveredProject.mk "/w" "W" true none none,
         DiscoveredProject.mk "/b" "B" false none none]
        (rescanPass (Env.mk (fun _ => []) (fun _ => []) id) 1
          [DiscoveredProject.mk "/w" "W" true none none,
           DiscoveredProject.mk "/b" "B" false none none]
          [("/old", DiscoveredProject.mk "/old" "Old" false none none)]).registry).removed = [] ∧
    (rescanPass (Env.mk (fun _ => []) (fun _ => []) id) 2
        [DiscoveredProject.mk "/w" "W" true none none,
         DiscoveredProject.mk "/b" "B" false none none]
        (rescanPass (Env.mk (fun _ => []) (fun _ => []) id) 1
          [DiscoveredProject.mk "/w" "W" true none none,
           DiscoveredProject.mk "/b" "B" false none none]
          [("/old", DiscoveredProject.mk "/old" "Old" false none none)]).registry).registry
      = (rescanPass (Env.mk (fun _ => []) (fun _ => []) id) 1
          [DiscoveredProject.mk "/w" "W" true none none,
           DiscoveredProject.mk "/b" "B" false none none]
          [("/old", DiscoveredProject.mk "/old" "Old" false none none)]).registry ∧
    eraseTimestamps (rescanPass (Env.mk (fun _ => []) (fun _ => []) id) 2
        [DiscoveredProject.mk "/w" "W" true none none,
         DiscoveredProject.mk "/b" "B" false none none]
        (rescanPass (Env.mk (fun _ => []) (fun _ => []) id) 1
          [DiscoveredProject.mk "/w" "W" true none none,
           DiscoveredProject.mk "/b" "B" false none none]
          [("/old", DiscoveredProject.mk "/old" "Old" false none none)]).registry).snapshot
      = eraseTimestamps (rescanPass (Env.mk (fun _ => []) (fun _ => []) id) 1
          [DiscoveredProject.mk "/w" "W" true none none,
           DiscoveredProject.mk "/b" "B" false none none]
          [("/old", DiscoveredProject.mk "/old" "Old" false none none)]).snapshot) :=
  ⟨by decide,
    rescan_idempotent (Env.mk (fun _ => []) (fun _ => []) id) 1 2
      [DiscoveredProject.mk "/w" "W" true none none,
       DiscoveredProject.mk "/b" "B" false none none]
      [("/old", DiscoveredProject.mk "/old" "Old" false none none)] (by decide)⟩

end Hivemind
